import Mathlib

/-!
Shallow embedding of the openlight process runner
(`pkg/runner/runner.go`): the instance lifecycle manager.

The Go code talks to two external systems which we model explicitly:

* the OS process table (`os.FindProcess` / `Process.Signal` /
  `exec.Cmd.Start`), modelled by `OS` below;
* the filesystem instance store (one directory per instance under a
  root path, each holding an `info.json` record and two log files),
  modelled by `Store` below, a list of directory entries in listing
  order.

Platform notes baked into the model (Unix, Go standard library):
`os.FindProcess` never fails on Unix, so the `FindProcess` error
branches of the Go code are dead and are omitted here.
`Process.Signal` to a PID that does not correspond to any existing OS
process, or to a process that has already been waited for, returns an
error whose message is exactly "os: process already finished"
(`os.ErrProcessDone`; the Go runtime maps the `ESRCH` errno to it).
Any other delivery failure (e.g. `EPERM`) surfaces its own message.
The processes this program signals (the children it launched) are
modelled as having the default disposition for signals 2 (SIGINT),
3 (SIGQUIT) and 9 (SIGKILL): delivery of any of those terminates the
process.  Delivery is fire-and-forget in the code; since every
observation we make happens in a later, sequential API call, the model
collapses the asynchronous death of the signalled process into the
delivery step.
-/

/-- Status constants from runner.go. -/
def StatusRunning : Int := 0

def StatusExited : Int := 1

def StatusError : Int := 2

def SignalInt : Int := 2

def SignalQuit : Int := 3

def SignalKill : Int := 9

/-- The error message of `os.ErrProcessDone`, string-matched by runner.go. -/
def errFinished : String := "os: process already finished"

/-- State of one PID in the OS process table. `finished` covers both "no
such process" (ESRCH) and "already waited for": the Go runtime reports
both as `os.ErrProcessDone`. `failing msg` is a process for which signal
delivery fails with some other error message `msg` (e.g. EPERM). -/
inductive ProcState where
  | alive : ProcState
  | finished : ProcState
  | failing : String → ProcState
deriving Repr, DecidableEq

/-- The OS process table. -/
structure OS where
  procs : Int → ProcState

/-- Result and effect of `Process.Signal(sig)` on `pid`: `none` means the
signal was delivered. Delivering one of the termination signals this
program uses (2, 3, 9) to an alive, default-disposition process
terminates it; signal 0 is the pure liveness probe. -/
def OS.deliver (os : OS) (pid : Int) (sig : Int) : Option String × OS :=
  match os.procs pid with
  | ProcState.alive =>
      if sig = 0 then (none, os)
      else (none, ⟨fun p => if p = pid then ProcState.finished else os.procs p⟩)
  | ProcState.finished => (some errFinished, os)
  | ProcState.failing msg => (some msg, os)

/-- Effect of `exec.Cmd.Start` succeeding: a new alive process at `pid`. -/
def OS.spawn (os : OS) (pid : Int) : OS :=
  ⟨fun p => if p = pid then ProcState.alive else os.procs p⟩

/-- AppStartOptions from runner.go. -/
structure AppStartOptions where
  Args : List String
  WorkDir : String
  Singleton : Bool
  Background : Bool
  IgnoreSpecArgs : Bool
deriving Repr, DecidableEq

/-- AppInstance record from runner.go (`info.json`). `Time` is the opaque
creation timestamp. -/
structure AppInstance where
  ID : String
  Time : Nat
  Name : String
  Command : String
  Options : AppStartOptions
  Pid : Int
deriving Repr, DecidableEq

/-- `AppInstance.GetStatus`: probe with signal 0; delivered → Running;
"os: process already finished" → Exited with no error; any other
delivery failure → Error carrying the cause. (Signal 0 never changes
the process table, so only the pair is returned.) -/
def AppInstance.GetStatus (inst : AppInstance) (os : OS) : Int × Option String :=
  match (os.deliver inst.Pid 0).1 with
  | none => (StatusRunning, none)
  | some msg =>
      if msg = errFinished then (StatusExited, none)
      else (StatusError, some msg)

/-- `AppInstance.Stop`: send SIGINT; "already finished" is success. -/
def AppInstance.Stop (inst : AppInstance) (os : OS) : Option String × OS :=
  match os.deliver inst.Pid SignalInt with
  | (none, os') => (none, os')
  | (some msg, os') =>
      if msg = errFinished then (none, os') else (some msg, os')

/-- `AppInstance.Quit`: send SIGQUIT; "already finished" is success. -/
def AppInstance.Quit (inst : AppInstance) (os : OS) : Option String × OS :=
  match os.deliver inst.Pid SignalQuit with
  | (none, os') => (none, os')
  | (some msg, os') =>
      if msg = errFinished then (none, os') else (some msg, os')

/-- `AppInstance.Kill`: send SIGKILL; "already finished" is success. -/
def AppInstance.Kill (inst : AppInstance) (os : OS) : Option String × OS :=
  match os.deliver inst.Pid SignalKill with
  | (none, os') => (none, os')
  | (some msg, os') =>
      if msg = errFinished then (none, os') else (some msg, os')

/-- A list of instance records (named so that it stays unambiguous next
to the Go method name `AppRunner.List`). -/
abbrev InstanceList := List AppInstance

/-- Contents of `<root>/<id>/info.json` as seen by `loadInstances`:
present and parsable, absent (ReadFile fails), or unparsable JSON. -/
inductive RecordFile where
  | good : AppInstance → RecordFile
  | missing : RecordFile
  | corrupt : RecordFile
deriving Repr, DecidableEq

/-- The instance store: the subdirectories of the runner root path, in
directory-listing order, each with its record file state. -/
abbrev Store := List (String × RecordFile)

/-- Does a directory named `id` exist under the root? (`os.Stat`.) -/
def Store.hasDir (st : Store) (id : String) : Bool :=
  st.any (fun e => e.1 == id)

/-- `os.MkdirAll`: creates the directory if absent (no record file yet). -/
def Store.mkdirAll (st : Store) (id : String) : Store :=
  if st.hasDir id then st else st ++ [(id, RecordFile.missing)]

/-- `os.RemoveAll`: recursively delete the directory; idempotent. -/
def Store.removeAll (st : Store) (id : String) : Store :=
  st.filter (fun e => e.1 != id)

/-- `ioutil.WriteFile` of the serialized record into an existing dir. -/
def Store.writeRecord (st : Store) (id : String) (inst : AppInstance) : Store :=
  st.map (fun e => if e.1 == id then (id, RecordFile.good inst) else e)

/-- Modelled from the spec: `RunnerAppSpec`, the named application
template. Its defining file is not part of the sources here; the fields
are those the spec lists for AppSpec (`Name`, `Command`, `WorkDir`,
`Singleton`, `Args`) and that runner.go accesses (`appSpec.Name`,
`appSpec.Command`, `appSpec.Workdir`, `appSpec.Singleton`,
`appSpec.Args`). -/
structure RunnerAppSpec where
  Name : String
  Command : String
  Workdir : String
  Singleton : Bool
  Args : List String
deriving Repr, DecidableEq

/-- Modelled from the spec: the outcome of `os.Stat` +
`LoadRunnerSpecFromFile` on one of the three spec file paths (the
loader itself is not part of the sources here). `absent`: stat fails;
`unparsable`: the loader returns an error (runner.go only warns and
skips the file); `loaded entries`: the file's `Apps` map as a list of
(map key, spec) entries. -/
inductive SpecFileState where
  | absent : SpecFileState
  | unparsable : SpecFileState
  | loaded : List (String × RunnerAppSpec) → SpecFileState

/-- The `Apps` map of the runner, `map[string]*RunnerAppSpec`. -/
abbrev AppsMap := String → Option RunnerAppSpec

/-- One iteration of the loop in `AppRunner.loadRunnerSpec`: merge one
spec file into the accumulated map, entry-by-entry (`apps[name] =
appSpec`): whole-record replacement keyed by app name. -/
def mergeSpecFile (apps : AppsMap) (f : SpecFileState) : AppsMap :=
  match f with
  | SpecFileState.absent => apps
  | SpecFileState.unparsable => apps
  | SpecFileState.loaded entries =>
      entries.foldl (fun m e => fun n => if n = e.1 then some e.2 else m n) apps

/-- `AppRunner.loadRunnerSpec`: the three files are visited in the order
global, user, project, starting from an empty map, so later files
override earlier ones by app name. -/
def loadRunnerSpec (globalF userF projectF : SpecFileState) : AppsMap :=
  mergeSpecFile (mergeSpecFile (mergeSpecFile (fun _ => none) globalF) userF) projectF

/-- The AppRunner: only the loaded `Apps` map matters to the embedded
operations; the root path is implicit in the `Store` values passed
around. -/
structure AppRunner where
  Apps : AppsMap

/-- `AppRunner.loadInstances`: enumerate the subdirectories of the root
in listing order; a directory that fails the id filter is skipped
before its record file is read; reading or parsing a record file of a
non-skipped directory fails the whole enumeration; otherwise the parsed
record is kept if it passes the instance filter. -/
def AppRunner.loadInstances (r : AppRunner) (st : Store)
    (idFilterFunc : Option (String → Bool))
    (instanceFilterFunc : Option (AppInstance → Bool)) :
    Except String InstanceList :=
  match st with
  | [] => Except.ok []
  | e :: rest =>
      if (match idFilterFunc with
          | some f => !f e.1
          | none => false) then
        r.loadInstances rest idFilterFunc instanceFilterFunc
      else
        match e.2 with
        | RecordFile.missing =>
            Except.error ("Failed to read Info file in instance " ++ e.1)
        | RecordFile.corrupt =>
            Except.error ("Info file in instance " ++ e.1 ++ " is broken")
        | RecordFile.good inst =>
            match r.loadInstances rest idFilterFunc instanceFilterFunc with
            | Except.error msg => Except.error msg
            | Except.ok tail =>
                if (match instanceFilterFunc with
                    | some f => f inst
                    | none => true) then
                  Except.ok (inst :: tail)
                else
                  Except.ok tail

/-- `AppRunner.List`: all instances, or only the currently Running ones. -/
def AppRunner.List (r : AppRunner) (os : OS) (st : Store) (onlyRunning : Bool) :
    Except String InstanceList :=
  if !onlyRunning then
    r.loadInstances st none none
  else
    r.loadInstances st none
      (some (fun inst => (inst.GetStatus os).1 == StatusRunning))

/-- `AppRunner.RemoveInstance`: `os.RemoveAll(<root>/<id>)`. The model
idealizes `RemoveAll` as always succeeding. -/
def AppRunner.RemoveInstance (_ : AppRunner) (st : Store) (id : String) : Store :=
  st.removeAll id

/-- `AppRunner.CleanAll`: list all instances, then remove each one whose
derived status is Exited (removal keyed by the record's `ID` field). -/
def AppRunner.CleanAll (r : AppRunner) (os : OS) (st : Store) :
    Except String Store :=
  match r.List os st false with
  | Except.error msg => Except.error msg
  | Except.ok instances =>
      Except.ok (instances.foldl
        (fun acc inst =>
          if (inst.GetStatus os).1 == StatusExited then
            r.RemoveInstance acc inst.ID
          else acc)
        st)

/-- `AppRunner.GetInstance`: enumerate with an id filter matching only
the requested directory name; `ok none` when no such directory. -/
def AppRunner.GetInstance (r : AppRunner) (st : Store) (id : String) :
    Except String (Option AppInstance) :=
  match r.loadInstances st (some (fun x => x == id)) none with
  | Except.error msg => Except.error msg
  | Except.ok [] => Except.ok none
  | Except.ok (inst :: _) => Except.ok (some inst)

/-- `AppRunner.GetInstancesByName`: canonicalize the name through the
spec table, then filter the full enumeration by record name. -/
def AppRunner.GetInstancesByName (r : AppRunner) (st : Store) (name : String) :
    Except String InstanceList :=
  let name' := match r.Apps name with
    | some appSpec => appSpec.Name
    | none => name
  r.loadInstances st none (some (fun inst => inst.Name == name'))

/-- `AppRunner.GetRunningInstancesByName`: as `GetInstancesByName` but
additionally requiring derived status Running. -/
def AppRunner.GetRunningInstancesByName (r : AppRunner) (os : OS) (st : Store)
    (name : String) : Except String InstanceList :=
  let name' := match r.Apps name with
    | some appSpec => appSpec.Name
    | none => name
  r.loadInstances st none
    (some (fun inst =>
      inst.Name == name' && (inst.GetStatus os).1 == StatusRunning))

/-- `AppRunner.getNextRandomID`: draw fixed-length random hex tokens
until one names no existing directory. `cands` is the stream of tokens
`crypto/rand` produces; `none` models the loop not having produced an
id (rand failure, or the unbounded retry loop still running). -/
def getNextRandomID (st : Store) : List String → Option String
  | [] => none
  | c :: rest => if st.hasDir c then getNextRandomID st rest else some c

/-- The environment of one `Start` call: everything the call consumes
from outside the store and process table. `idCands` is the stream of
random tokens `getNextRandomID` draws; `time` is `time.Now()`;
the `...Err` fields inject the possible failures of `os.MkdirAll`
(idealized: a failed MkdirAll creates nothing), the two `os.Create`
calls, `Process.Release` (background only) and the marshal/WriteFile
persistence step (`json.Marshal` cannot fail on this record type);
`launch` is the outcome of `exec.Cmd.Start` (the child's PID on
success). -/
structure StartEnv where
  idCands : List String
  time : Nat
  mkdirErr : Option String
  stderrErr : Option String
  stdoutErr : Option String
  launch : Except String Int
  releaseErr : Option String
  persistErr : Option String

/-- The singleton-enforcement loop of `AppRunner.Start`: for each
instance sharing the resolved name, ask its status; a status probe
error aborts; each Running one is stopped, a stop error aborts. -/
def stopRunningInstances (os : OS) : InstanceList → Except String OS
  | [] => Except.ok os
  | inst :: rest =>
      let s := inst.GetStatus os
      match s.2 with
      | some e =>
          Except.error ("Failed to get the status of process " ++
            toString inst.Pid ++ ", error: " ++ e)
      | none =>
          if s.1 = StatusRunning then
            match inst.Stop os with
            | (some e, _) =>
                Except.error ("Failed to stop process " ++
                  toString inst.Pid ++ ", error: " ++ e)
            | (none, os') => stopRunningInstances os' rest
          else
            stopRunningInstances os rest

/-- Spec-resolution step of `AppRunner.Start` (runner.go lines 186 to
204): when the name matches a loaded spec, canonicalize the name,
substitute an unset command/workdir from the spec, turn the singleton
flag on when the spec requires it, and prepend the spec args unless
`IgnoreSpecArgs` is set. Returns the resolved (name, command, options). -/
def resolveStartParams (r : AppRunner) (name0 command0 : String)
    (options0 : AppStartOptions) : String × String × AppStartOptions :=
  match r.Apps name0 with
  | none => (name0, command0, options0)
  | some appSpec =>
      (appSpec.Name,
       if command0 = "" then appSpec.Command else command0,
       AppStartOptions.mk
         (if !options0.IgnoreSpecArgs && appSpec.Args.length > 0 then
            appSpec.Args ++ options0.Args
          else options0.Args)
         (if options0.WorkDir = "" then appSpec.Workdir else options0.WorkDir)
         (if options0.Singleton = false && appSpec.Singleton then
            appSpec.Singleton
          else options0.Singleton)
         options0.Background
         options0.IgnoreSpecArgs)

/-- Singleton-enforcement step of `AppRunner.Start`: when the resolved
options require a singleton, enumerate the instances sharing the
resolved name and stop every Running one before proceeding. -/
def singletonPhase (r : AppRunner) (os0 : OS) (st : Store) (name : String)
    (options : AppStartOptions) : Except String OS :=
  if options.Singleton then
    match r.GetInstancesByName st name with
    | Except.error e => Except.error e
    | Except.ok instances => stopRunningInstances os0 instances
  else Except.ok os0

/-- `AppRunner.Start`: resolve the spec, require a command, enforce the
singleton policy, allocate a fresh id and directory, create the log
files, launch, and persist the record; on any failure after the
directory was created it is removed again (the deferred cleanup guarded
by the `succeed` flag). Returns the result together with the store and
process table after the call. -/
def AppRunner.Start (r : AppRunner) (os0 : OS) (st : Store) (env : StartEnv)
    (name0 command0 : String) (options0 : AppStartOptions) :
    Except String AppInstance × Store × OS :=
  let name := (resolveStartParams r name0 command0 options0).1
  let command := (resolveStartParams r name0 command0 options0).2.1
  let options := (resolveStartParams r name0 command0 options0).2.2
  if command = "" then
    (Except.error "Require command", st, os0)
  else
    match singletonPhase r os0 st name options with
    | Except.error e => (Except.error e, st, os0)
    | Except.ok os1 =>
        match getNextRandomID st env.idCands with
        | none => (Except.error "Failed to generate instance id", st, os1)
        | some id =>
            match env.mkdirErr with
            | some e => (Except.error e, st, os1)
            | none =>
                let st1 := st.mkdirAll id
                match env.stderrErr with
                | some e => (Except.error e, st1.removeAll id, os1)
                | none =>
                match env.stdoutErr with
                | some e => (Except.error e, st1.removeAll id, os1)
                | none =>
                match env.launch with
                | Except.error e => (Except.error e, st1.removeAll id, os1)
                | Except.ok pid =>
                    let os2 := os1.spawn pid
                    match (if options.Background then env.releaseErr else none) with
                    | some e => (Except.error e, st1.removeAll id, os2)
                    | none =>
                        let inst := AppInstance.mk id env.time name command options pid
                        match env.persistErr with
                        | some e => (Except.error e, st1.removeAll id, os2)
                        | none =>
                            (Except.ok inst, st1.writeRecord id inst, os2)

/-- `AppRunner.Clean`: `os.RemoveAll(<root>/<id>)`, idealized as always
succeeding. -/
def AppRunner.Clean (_ : AppRunner) (st : Store) (id : String) : Store :=
  st.removeAll id

/-- `AppRunner.Stop`: look the instance up, signal-stop it, and remove
its directory when `clean` is requested and the signal step succeeded. -/
def AppRunner.Stop (r : AppRunner) (os : OS) (st : Store) (id : String)
    (clean : Bool) : Except String Unit × Store × OS :=
  match r.GetInstance st id with
  | Except.error e => (Except.error e, st, os)
  | Except.ok none => (Except.error "Application instance not found", st, os)
  | Except.ok (some inst) =>
      match inst.Stop os with
      | (some e, os') => (Except.error e, st, os')
      | (none, os') =>
          if clean then (Except.ok (), r.Clean st inst.ID, os')
          else (Except.ok (), st, os')

/-- `AppRunner.Restart`: load the record, stop it, optionally clean its
directory, then re-invoke `Start` with the name, command and options
snapshot stored in that record. -/
def AppRunner.Restart (r : AppRunner) (os : OS) (st : Store) (env : StartEnv)
    (id : String) (clean : Bool) :
    Except String AppInstance × Store × OS :=
  match r.GetInstance st id with
  | Except.error e => (Except.error e, st, os)
  | Except.ok none => (Except.error "Application instance not found", st, os)
  | Except.ok (some inst) =>
      match inst.Stop os with
      | (some e, os') => (Except.error e, st, os')
      | (none, os') =>
          let st' := if clean then r.Clean st inst.ID else st
          r.Start os' st' env inst.Name inst.Command inst.Options

/-- Concrete sample fixtures used by the closed instantiations below. -/
def plainOpts : AppStartOptions := ⟨[], "", false, false, false⟩

def deadOS : OS := ⟨fun _ => ProcState.finished⟩

def noApps : AppRunner := ⟨fun _ => none⟩

def okEnv : StartEnv := ⟨["fresh1"], 10, none, none, none, Except.ok 50, none, none⟩

def persistFailEnv : StartEnv :=
  ⟨["fresh1"], 10, none, none, none, Except.ok 50, none, some "disk full"⟩

/-- A well-formed store holding exactly the given records, each under
the directory named by its `ID`. -/
def storeOf (insts : InstanceList) : Store :=
  insts.map (fun i => (i.ID, RecordFile.good i))

/-- C2: for every AppInstance whose Pid no longer corresponds to an
existing OS process (the probe reports the process as finished),
GetStatus returns Exited with no error, never Error; and whenever
GetStatus does return Error, the liveness probe failed with an error
other than the process-finished one, which is carried as the cause. -/
theorem C2_status_of_nonexistent_pid (os : OS) (inst : AppInstance) :
    (os.procs inst.Pid = ProcState.finished →
      inst.GetStatus os = (StatusExited, none)) ∧
    (∀ msg, inst.GetStatus os = (StatusError, some msg) →
      os.procs inst.Pid = ProcState.failing msg ∧ msg ≠ errFinished) := by
  constructor
  · intro h
    simp [AppInstance.GetStatus, OS.deliver, h]
  · intro msg h
    unfold AppInstance.GetStatus OS.deliver at h
    cases hp : os.procs inst.Pid with
    | alive => simp [hp, StatusRunning, StatusError] at h
    | finished =>
        simp [hp, StatusExited, StatusError] at h
    | failing m =>
        by_cases hm : m = errFinished
        · simp [hp, hm, StatusExited, StatusError] at h
        · simp [hp, hm, StatusError] at h
          subst h
          exact ⟨rfl, hm⟩

/-- C2 witness: concrete instantiation at a dead PID. -/
theorem C2_status_of_nonexistent_pid_witness :
    (OS.mk fun _ => ProcState.finished).procs (100 : Int) = ProcState.finished ∧
    AppInstance.GetStatus ⟨"aa", 0, "a", "/bin/a", ⟨[], "", false, false, false⟩, 100⟩
      (OS.mk fun _ => ProcState.finished) = (StatusExited, none) := by
  refine ⟨rfl, ?_⟩
  exact (C2_status_of_nonexistent_pid (OS.mk fun _ => ProcState.finished)
    ⟨"aa", 0, "a", "/bin/a", ⟨[], "", false, false, false⟩, 100⟩).1 rfl

/-- C9: Stop, Quit and Kill on an instance whose process no longer
exists or has already finished return success and change nothing, and
stopping such an instance twice returns no error both times; a signal
error surfaces exactly when delivery failed for a reason other than the
process having finished. -/
theorem C9_signal_idempotent_noop (os : OS) (inst : AppInstance) :
    (os.procs inst.Pid = ProcState.finished →
      inst.Stop os = (none, os) ∧ inst.Quit os = (none, os) ∧
      inst.Kill os = (none, os) ∧
      (inst.Stop ((inst.Stop os).2)).1 = none) ∧
    (∀ e, (inst.Stop os).1 = some e ∨ (inst.Quit os).1 = some e ∨
        (inst.Kill os).1 = some e →
      os.procs inst.Pid = ProcState.failing e ∧ e ≠ errFinished) := by
  constructor
  · intro h
    simp [AppInstance.Stop, AppInstance.Quit, AppInstance.Kill, OS.deliver, h]
  · intro e he
    cases hp : os.procs inst.Pid with
    | alive =>
        simp [AppInstance.Stop, AppInstance.Quit, AppInstance.Kill,
          OS.deliver, hp, SignalInt, SignalQuit, SignalKill] at he
    | finished =>
        simp [AppInstance.Stop, AppInstance.Quit, AppInstance.Kill,
          OS.deliver, hp] at he
    | failing m =>
        by_cases hm : m = errFinished
        · simp [AppInstance.Stop, AppInstance.Quit, AppInstance.Kill,
            OS.deliver, hp, hm] at he
        · simp [AppInstance.Stop, AppInstance.Quit, AppInstance.Kill,
            OS.deliver, hp, hm] at he
          rcases he with h1 | h1 | h1 <;> simp_all

/-- C9 witness: concrete Stop of an already-finished process. -/
theorem C9_signal_idempotent_noop_witness :
    (OS.mk fun _ => ProcState.finished).procs (5 : Int) = ProcState.finished ∧
    AppInstance.Stop ⟨"aa", 0, "a", "/bin/a", ⟨[], "", false, false, false⟩, 5⟩
      (OS.mk fun _ => ProcState.finished) =
      (none, OS.mk fun _ => ProcState.finished) := by
  refine ⟨rfl, ?_⟩
  exact ((C9_signal_idempotent_noop (OS.mk fun _ => ProcState.finished)
    ⟨"aa", 0, "a", "/bin/a", ⟨[], "", false, false, false⟩, 5⟩).1 rfl).1

/-- Helper: a corrupt or missing record file in a directory whose name
the id filter does not skip fails the whole enumeration. -/
theorem loadInstances_error_of_bad (r : AppRunner) (idf : Option (String → Bool))
    (instf : Option (AppInstance → Bool)) (id : String) (rec : RecordFile) :
    ∀ st : Store, (id, rec) ∈ st →
      (rec = RecordFile.corrupt ∨ rec = RecordFile.missing) →
      (∀ f, idf = some f → f id = true) →
      ∃ e, r.loadInstances st idf instf = Except.error e := by
  intro st
  induction st with
  | nil => intro h; cases h
  | cons hd tl ih =>
      intro hmem hbad hpass
      rw [List.mem_cons] at hmem
      rcases hmem with heq | hmem
      · subst heq
        rcases idf with _ | f
        · rcases hbad with hb | hb <;> simp [AppRunner.loadInstances, hb]
        · have hf : f id = true := hpass f rfl
          rcases hbad with hb | hb <;> simp [AppRunner.loadInstances, hb, hf]
      · obtain ⟨hid, hrec⟩ := hd
        rcases idf with _ | f
        · cases hrec with
          | good inst =>
              obtain ⟨e, he⟩ := ih hmem hbad hpass
              exact ⟨e, by simp [AppRunner.loadInstances, he]⟩
          | missing =>
              exact ⟨"Failed to read Info file in instance " ++ hid,
                by simp [AppRunner.loadInstances]⟩
          | corrupt =>
              exact ⟨"Info file in instance " ++ hid ++ " is broken",
                by simp [AppRunner.loadInstances]⟩
        · by_cases hskip : f hid = true
          · cases hrec with
            | good inst =>
                obtain ⟨e, he⟩ := ih hmem hbad hpass
                exact ⟨e, by simp [AppRunner.loadInstances, hskip, he]⟩
            | missing =>
                exact ⟨"Failed to read Info file in instance " ++ hid,
                  by simp [AppRunner.loadInstances, hskip]⟩
            | corrupt =>
                exact ⟨"Info file in instance " ++ hid ++ " is broken",
                  by simp [AppRunner.loadInstances, hskip]⟩
          · obtain ⟨e, he⟩ := ih hmem hbad hpass
            refine ⟨e, ?_⟩
            simp only [Bool.not_eq_true] at hskip
            simp [AppRunner.loadInstances, hskip, he]

/-- C4 counterexample: a corrupt record in directory "aa" does not make
GetInstance of directory "bb" fail - the id filter skips "aa" before
its record is read, so the enumeration succeeds, contradicting the
claim that any corrupt record fails every enumeration including
GetInstance. -/
theorem C4_counterexample :
    (("aa", RecordFile.corrupt) ∈
      ([("aa", RecordFile.corrupt),
        ("bb", RecordFile.good
          ⟨"bb", 0, "app", "/bin/app", ⟨[], "", false, false, false⟩, 7⟩)] : Store)) ∧
    AppRunner.GetInstance ⟨fun _ => none⟩
      [("aa", RecordFile.corrupt),
       ("bb", RecordFile.good
         ⟨"bb", 0, "app", "/bin/app", ⟨[], "", false, false, false⟩, 7⟩)]
      "bb" =
      Except.ok (some ⟨"bb", 0, "app", "/bin/app", ⟨[], "", false, false, false⟩, 7⟩) :=
  ⟨List.mem_cons_self _ _, rfl⟩

/-- C4 amended: for the enumerations that read every subdirectory's
record (List in both modes, GetInstancesByName,
GetRunningInstancesByName, CleanAll), one unreadable or unparsable
record file fails the whole operation; GetInstance fails when the
requested directory's own record is unreadable or unparsable, but
skips other directories before reading them. -/
theorem C4_corrupt_record_fails_enumeration (r : AppRunner) (os : OS) (st : Store)
    (id : String) (rec : RecordFile)
    (hmem : (id, rec) ∈ st)
    (hbad : rec = RecordFile.corrupt ∨ rec = RecordFile.missing) :
    (∃ e, r.List os st false = Except.error e) ∧
    (∃ e, r.List os st true = Except.error e) ∧
    (∀ nm, ∃ e, r.GetInstancesByName st nm = Except.error e) ∧
    (∀ nm, ∃ e, r.GetRunningInstancesByName os st nm = Except.error e) ∧
    (∃ e, r.CleanAll os st = Except.error e) ∧
    (∃ e, r.GetInstance st id = Except.error e) := by
  have hnone : ∀ instf, ∃ e, r.loadInstances st none instf = Except.error e :=
    fun instf => loadInstances_error_of_bad r none instf id rec st hmem hbad
      (fun f h => by cases h)
  refine ⟨?_, ?_, ?_, ?_, ?_, ?_⟩
  · simpa [AppRunner.List] using hnone none
  · simpa [AppRunner.List] using
      hnone (some (fun inst => (inst.GetStatus os).1 == StatusRunning))
  · intro nm
    simpa [AppRunner.GetInstancesByName] using
      hnone (some (fun inst => inst.Name ==
        (match r.Apps nm with
         | some appSpec => appSpec.Name
         | none => nm)))
  · intro nm
    simpa [AppRunner.GetRunningInstancesByName] using
      hnone (some (fun inst => inst.Name ==
        (match r.Apps nm with
         | some appSpec => appSpec.Name
         | none => nm) && (inst.GetStatus os).1 == StatusRunning))
  · obtain ⟨e, he⟩ := hnone none
    exact ⟨e, by simp [AppRunner.CleanAll, AppRunner.List, he]⟩
  · obtain ⟨e, he⟩ := loadInstances_error_of_bad r (some (fun x => x == id)) none
      id rec st hmem hbad (fun f h => by cases h; simp)
    exact ⟨e, by simp [AppRunner.GetInstance, he]⟩

/-- C4 amended witness: a store holding one corrupt record makes
CleanAll and the keyed GetInstance fail. -/
theorem C4_corrupt_record_fails_enumeration_witness :
    (∃ e, AppRunner.CleanAll ⟨fun _ => none⟩ ⟨fun _ => ProcState.finished⟩
      [("aa", RecordFile.corrupt)] = Except.error e) ∧
    (∃ e, AppRunner.GetInstance ⟨fun _ => none⟩
      [("aa", RecordFile.corrupt)] "aa" = Except.error e) := by
  have h := C4_corrupt_record_fails_enumeration ⟨fun _ => none⟩
    ⟨fun _ => ProcState.finished⟩ [("aa", RecordFile.corrupt)] "aa"
    RecordFile.corrupt (List.mem_cons_self _ _) (Or.inl rfl)
  exact ⟨h.2.2.2.2.1, h.2.2.2.2.2⟩

/-- Helper: folding map updates over entries none of which carry `name`
leaves the map unchanged at `name`. -/
theorem mergeFold_notin (entries : List (String × RunnerAppSpec)) :
    ∀ (m : AppsMap) (name : String), (∀ e ∈ entries, e.1 ≠ name) →
      entries.foldl (fun m e => fun n => if n = e.1 then some e.2 else m n) m name
        = m name := by
  induction entries with
  | nil => intro m name _; rfl
  | cons hd tl ih =>
      intro m name h
      simp only [List.foldl_cons]
      rw [ih _ name (fun e he => h e (List.mem_cons_of_mem _ he))]
      have hne : name ≠ hd.1 := fun hh => h hd (List.mem_cons_self _ _) hh.symm
      simp [hne]

/-- C7: spec loading merges global, then user, then project files, and
a later file replaces a same-named app whole-record: whatever the
earlier files said about the app, the resolved entry is exactly the
project file's record. -/
theorem C7_project_overrides (gf uf : SpecFileState)
    (es1 es2 : List (String × RunnerAppSpec)) (name : String) (s : RunnerAppSpec)
    (h2 : ∀ e ∈ es2, e.1 ≠ name) :
    loadRunnerSpec gf uf (SpecFileState.loaded (es1 ++ (name, s) :: es2)) name
      = some s := by
  unfold loadRunnerSpec
  conv_lhs => rw [mergeSpecFile]
  simp only [List.foldl_append, List.foldl_cons]
  rw [mergeFold_notin es2 _ name h2]
  simp

/-- C7 witness: the spec's own example - project Workdir /a overrides
global Workdir /b for app svc. -/
theorem C7_project_overrides_witness :
    loadRunnerSpec
      (SpecFileState.loaded [("svc", ⟨"svc", "cmd", "/b", false, []⟩)])
      SpecFileState.absent
      (SpecFileState.loaded [("svc", ⟨"svc", "cmd", "/a", false, []⟩)])
      "svc" = some ⟨"svc", "cmd", "/a", false, []⟩ ∧
    (RunnerAppSpec.mk "svc" "cmd" "/a" false []).Workdir = "/a" := by
  refine ⟨?_, rfl⟩
  exact C7_project_overrides
    (SpecFileState.loaded [("svc", ⟨"svc", "cmd", "/b", false, []⟩)])
    SpecFileState.absent [] [] "svc" ⟨"svc", "cmd", "/a", false, []⟩
    (fun e he => absurd he (List.not_mem_nil e))

theorem hasDir_false_iff (st : Store) (id : String) :
    st.hasDir id = false ↔ ∀ e ∈ st, e.1 ≠ id := by
  simp [Store.hasDir]

theorem getNextRandomID_fresh (st : Store) :
    ∀ cands id, getNextRandomID st cands = some id → st.hasDir id = false := by
  intro cands
  induction cands with
  | nil => intro id h; cases h
  | cons c rest ih =>
      intro id h
      unfold getNextRandomID at h
      by_cases hc : st.hasDir c = true
      · rw [if_pos hc] at h
        exact ih id h
      · rw [if_neg hc] at h
        cases h
        exact Bool.eq_false_iff.mpr hc

theorem mkdirAll_fresh (st : Store) (id : String) (h : st.hasDir id = false) :
    st.mkdirAll id = st ++ [(id, RecordFile.missing)] := by
  simp [Store.mkdirAll, h]

theorem removeAll_append_fresh (st : Store) (id : String) (rec : RecordFile)
    (h : st.hasDir id = false) :
    Store.removeAll (st ++ [(id, rec)]) id = st := by
  rw [hasDir_false_iff] at h
  simp only [Store.removeAll, List.filter_append]
  rw [List.filter_eq_self.mpr (fun e he => by simpa using h e he)]
  simp

theorem writeRecord_append_fresh (st : Store) (id : String) (rec : RecordFile)
    (inst : AppInstance) (h : st.hasDir id = false) :
    Store.writeRecord (st ++ [(id, rec)]) id inst
      = st ++ [(id, RecordFile.good inst)] := by
  rw [hasDir_false_iff] at h
  simp only [Store.writeRecord, List.map_append]
  have hmap : ∀ l : Store, (∀ e ∈ l, e.1 ≠ id) →
      l.map (fun e => if e.1 == id then (id, RecordFile.good inst) else e) = l := by
    intro l
    induction l with
    | nil => intro _; rfl
    | cons hd tl ih =>
        intro hl
        have h1 : hd.1 ≠ id := hl hd (List.mem_cons_self _ _)
        simp only [List.map_cons]
        rw [ih (fun e he => hl e (List.mem_cons_of_mem _ he))]
        simp [h1]
  rw [hmap st h]
  simp

/-- Master inversion: a successful `Start` pins down every component of
the result. -/
theorem Start_ok_shape (r : AppRunner) (os0 : OS) (st : Store) (env : StartEnv)
    (name0 command0 : String) (options0 : AppStartOptions)
    (inst : AppInstance) (st' : Store) (os' : OS)
    (hrun : r.Start os0 st env name0 command0 options0 = (Except.ok inst, st', os')) :
    ∃ id pid os1,
      getNextRandomID st env.idCands = some id ∧
      singletonPhase r os0 st (resolveStartParams r name0 command0 options0).1
        (resolveStartParams r name0 command0 options0).2.2 = Except.ok os1 ∧
      env.launch = Except.ok pid ∧
      inst = AppInstance.mk id env.time
        (resolveStartParams r name0 command0 options0).1
        (resolveStartParams r name0 command0 options0).2.1
        (resolveStartParams r name0 command0 options0).2.2 pid ∧
      st' = st ++ [(id, RecordFile.good inst)] ∧
      os' = os1.spawn pid := by
  simp only [AppRunner.Start] at hrun
  split at hrun
  · exact absurd hrun (by simp)
  · split at hrun
    · exact absurd hrun (by simp)
    · next os1 hsing =>
      split at hrun
      · exact absurd hrun (by simp)
      · next id hid =>
        split at hrun
        · exact absurd hrun (by simp)
        · next hmk =>
          split at hrun
          · exact absurd hrun (by simp)
          · next hse =>
            split at hrun
            · exact absurd hrun (by simp)
            · next hso =>
              split at hrun
              · exact absurd hrun (by simp)
              · next pid hpid =>
                split at hrun
                · exact absurd hrun (by simp)
                · next hrel =>
                  split at hrun
                  · exact absurd hrun (by simp)
                  · next hper =>
                    simp only [Prod.mk.injEq, Except.ok.injEq] at hrun
                    obtain ⟨h1, h2, h3⟩ := hrun
                    have hfresh := getNextRandomID_fresh st env.idCands id hid
                    refine ⟨id, pid, os1, hid, hsing, hpid, h1.symm, ?_, h3.symm⟩
                    rw [← h2, ← h1]
                    rw [mkdirAll_fresh st id hfresh,
                      writeRecord_append_fresh st id RecordFile.missing _ hfresh]

/-- Master inversion: a failed `Start` leaves the store exactly as it
was (compensation removes the partially created directory). -/
theorem Start_err_store (r : AppRunner) (os0 : OS) (st : Store) (env : StartEnv)
    (name0 command0 : String) (options0 : AppStartOptions)
    (e : String) (st' : Store) (os' : OS)
    (hrun : r.Start os0 st env name0 command0 options0 = (Except.error e, st', os')) :
    st' = st := by
  simp only [AppRunner.Start] at hrun
  split at hrun
  · simp only [Prod.mk.injEq] at hrun
    exact hrun.2.1.symm
  · split at hrun
    · simp only [Prod.mk.injEq] at hrun
      exact hrun.2.1.symm
    · next os1 hsing =>
      split at hrun
      · simp only [Prod.mk.injEq] at hrun
        exact hrun.2.1.symm
      · next id hid =>
        have hfresh := getNextRandomID_fresh st env.idCands id hid
        have hclean : (st.mkdirAll id).removeAll id = st := by
          rw [mkdirAll_fresh st id hfresh]
          exact removeAll_append_fresh st id _ hfresh
        split at hrun
        · simp only [Prod.mk.injEq] at hrun
          exact hrun.2.1.symm
        · next hmk =>
          split at hrun
          · simp only [Prod.mk.injEq] at hrun
            rw [← hrun.2.1]
            exact hclean
          · next hse =>
            split at hrun
            · simp only [Prod.mk.injEq] at hrun
              rw [← hrun.2.1]
              exact hclean
            · next hso =>
              split at hrun
              · simp only [Prod.mk.injEq] at hrun
                rw [← hrun.2.1]
                exact hclean
              · next pid hpid =>
                split at hrun
                · simp only [Prod.mk.injEq] at hrun
                  rw [← hrun.2.1]
                  exact hclean
                · next hrel =>
                  split at hrun
                  · simp only [Prod.mk.injEq] at hrun
                    rw [← hrun.2.1]
                    exact hclean
                  · next hper =>
                    exact absurd hrun (by simp)

/-- C3: every failing Start leaves the store exactly as it was - the
instance directory created along the way is removed before the error
returns - and every successful Start leaves the store extended by
exactly the one new directory holding the written record. -/
theorem C3_start_cleanup (r : AppRunner) (os0 : OS) (st : Store) (env : StartEnv)
    (name0 command0 : String) (options0 : AppStartOptions) :
    (∀ e st' os',
      r.Start os0 st env name0 command0 options0 = (Except.error e, st', os') →
        st' = st) ∧
    (∀ inst st' os',
      r.Start os0 st env name0 command0 options0 = (Except.ok inst, st', os') →
        st' = st ++ [(inst.ID, RecordFile.good inst)]) := by
  constructor
  · exact fun e st' os' h =>
      Start_err_store r os0 st env name0 command0 options0 e st' os' h
  · intro inst st' os' h
    obtain ⟨id, pid, os1, hid, hsing, hpid, hinst, hst, hos⟩ :=
      Start_ok_shape r os0 st env name0 command0 options0 inst st' os' h
    rw [hst, hinst]

/-- C3 witness: a persistence failure leaves the empty store empty; a
successful start adds exactly the new record. -/
theorem C3_start_cleanup_witness :
    (AppRunner.Start noApps deadOS [] persistFailEnv "n" "/bin/x" plainOpts).2.1
      = [] ∧
    (AppRunner.Start noApps deadOS [] okEnv "n" "/bin/x" plainOpts).2.1
      = [("fresh1", RecordFile.good ⟨"fresh1", 10, "n", "/bin/x", plainOpts, 50⟩)] := by
  constructor
  · exact (C3_start_cleanup noApps deadOS [] persistFailEnv "n" "/bin/x" plainOpts).1
      "disk full" _ _ rfl
  · have h := (C3_start_cleanup noApps deadOS [] okEnv "n" "/bin/x" plainOpts).2
      ⟨"fresh1", 10, "n", "/bin/x", plainOpts, 50⟩ _ _ rfl
    simpa using h

/-- C8: when the name matches a loaded spec, the started record's args
are the spec args followed by the caller args unless IgnoreSpecArgs is
set, in which case the caller args are used verbatim; an unset command
or workdir falls back to the spec's value. -/
theorem C8_spec_fallback (r : AppRunner) (os0 : OS) (st : Store) (env : StartEnv)
    (name command : String) (options : AppStartOptions) (appSpec : RunnerAppSpec)
    (inst : AppInstance) (st' : Store) (os' : OS)
    (hspec : r.Apps name = some appSpec)
    (hrun : r.Start os0 st env name command options = (Except.ok inst, st', os')) :
    inst.Options.Args = (if options.IgnoreSpecArgs = true then options.Args
      else appSpec.Args ++ options.Args) ∧
    inst.Command = (if command = "" then appSpec.Command else command) ∧
    inst.Options.WorkDir = (if options.WorkDir = "" then appSpec.Workdir
      else options.WorkDir) := by
  obtain ⟨id, pid, os1, hid, hsing, hpid, hinst, hst, hos⟩ :=
    Start_ok_shape r os0 st env name command options inst st' os' hrun
  subst hinst
  refine ⟨?_, ?_, ?_⟩
  · simp only [resolveStartParams, hspec]
    by_cases hig : options.IgnoreSpecArgs = true
    · simp [hig]
    · by_cases hlen : appSpec.Args.length > 0
      · simp [hig, hlen]
      · have hnil : appSpec.Args = [] := List.length_eq_zero.mp (by omega)
        simp [hig, hlen, hnil]
  · simp [resolveStartParams, hspec]
  · simp [resolveStartParams, hspec]

/-- C8 witness: spec args prepended and spec command substituted at a
concrete spec. -/
theorem C8_spec_fallback_witness :
    ((AppRunner.Start
        ⟨fun n => if n = "svc" then
            some ⟨"service", "/bin/srv", "/srv", false, ["-a"]⟩
          else none⟩
        deadOS [] okEnv "svc" "" ⟨["-b"], "", false, false, false⟩).1
      = Except.ok ⟨"fresh1", 10, "service", "/bin/srv",
          ⟨["-a", "-b"], "/srv", false, false, false⟩, 50⟩) ∧
    (AppInstance.mk "fresh1" 10 "service" "/bin/srv"
        ⟨["-a", "-b"], "/srv", false, false, false⟩ 50).Options.Args
      = ["-a"] ++ ["-b"] := by
  refine ⟨rfl, ?_⟩
  exact (C8_spec_fallback
    ⟨fun n => if n = "svc" then
        some ⟨"service", "/bin/srv", "/srv", false, ["-a"]⟩
      else none⟩
    deadOS [] okEnv "svc" "" ⟨["-b"], "", false, false, false⟩
    ⟨"service", "/bin/srv", "/srv", false, ["-a"]⟩
    ⟨"fresh1", 10, "service", "/bin/srv",
      ⟨["-a", "-b"], "/srv", false, false, false⟩, 50⟩
    _ _ (by rfl) rfl).1

/-- Helper: an enumeration keyed to directory name `id` that returns a
nonempty list implies a directory named `id` exists. -/
theorem loadInstances_some_hasDir (r : AppRunner) (id : String)
    (instf : Option (AppInstance → Bool)) :
    ∀ (st : Store) (inst : AppInstance) (rest : InstanceList),
      r.loadInstances st (some (fun x => x == id)) instf
        = Except.ok (inst :: rest) →
      st.hasDir id = true := by
  intro st
  induction st with
  | nil =>
      intro inst rest h
      simp [AppRunner.loadInstances] at h
  | cons hd tl ih =>
      intro inst rest h
      by_cases hskip : (hd.1 == id) = true
      · simp [Store.hasDir, hskip]
      · have hskip2 : (hd.1 == id) = false := Bool.eq_false_iff.mpr hskip
        simp only [AppRunner.loadInstances, hskip2] at h
        simp only [Bool.not_false, if_true] at h
        have htl : Store.hasDir tl id = true := ih inst rest h
        simp [Store.hasDir] at htl ⊢
        exact Or.inr htl

/-- Helper: a successful `GetInstance` implies the directory exists. -/
theorem GetInstance_ok_hasDir (r : AppRunner) (st : Store) (id : String)
    (inst : AppInstance)
    (h : r.GetInstance st id = Except.ok (some inst)) :
    st.hasDir id = true := by
  unfold AppRunner.GetInstance at h
  cases hl : r.loadInstances st (some (fun x => x == id)) none with
  | error e => rw [hl] at h; cases h
  | ok l =>
      rw [hl] at h
      cases l with
      | nil => simp at h
      | cons a as => exact loadInstances_some_hasDir r id none st a as hl

/-- C6 amended: Restart with clean = false returns an instance whose ID
differs from the restarted one, and the store after the call is the old
store - every old record unchanged, the old one included - plus the one
new record. (With clean = true the old directory is removed and its ID
may be drawn again; see the counterexample.) -/
theorem C6_restart_noclean (r : AppRunner) (os : OS) (st : Store) (env : StartEnv)
    (id : String) (oldInst newInst : AppInstance) (st' : Store) (os' : OS)
    (hget : r.GetInstance st id = Except.ok (some oldInst))
    (hrun : r.Restart os st env id false = (Except.ok newInst, st', os')) :
    newInst.ID ≠ id ∧
    st' = st ++ [(newInst.ID, RecordFile.good newInst)] := by
  unfold AppRunner.Restart at hrun
  rw [hget] at hrun
  simp only [] at hrun
  rcases hstop : oldInst.Stop os with ⟨eo, os2⟩
  rw [hstop] at hrun
  cases eo with
  | some e => simp at hrun
  | none =>
      simp only [Bool.false_eq_true, if_false] at hrun
      obtain ⟨nid, pid, os1, hid, hsing, hpid, hinst, hst, hos⟩ :=
        Start_ok_shape r os2 st env oldInst.Name oldInst.Command oldInst.Options
          newInst st' os' hrun
      have hfresh := getNextRandomID_fresh st env.idCands nid hid
      have hdir := GetInstance_ok_hasDir r st id oldInst hget
      have hnewid : newInst.ID = nid := by rw [hinst]
      constructor
      · rw [hnewid]
        intro hcontra
        rw [hcontra] at hfresh
        rw [hdir] at hfresh
        cases hfresh
      · rw [hst, hnewid]

/-- C6 counterexample: with clean = true the old directory is removed
before Start draws the new ID, so the old ID can be drawn again: here
Restart returns an instance whose ID equals the old instance's ID,
refuting the unconditional "fresh ID distinct from the old one". -/
theorem C6_counterexample :
    (AppRunner.Restart ⟨fun _ => none⟩ ⟨fun _ => ProcState.finished⟩
      [("old1", RecordFile.good
        ⟨"old1", 0, "n", "/bin/x", ⟨[], "", false, false, false⟩, 9⟩)]
      ⟨["old1"], 1, none, none, none, Except.ok 51, none, none⟩
      "old1" true).1
      = Except.ok ⟨"old1", 1, "n", "/bin/x", ⟨[], "", false, false, false⟩, 51⟩ := by
  rfl

/-- C10: restarting an instance of an app whose loaded spec has
non-empty Args (with IgnoreSpecArgs unset in the stored options)
prepends the spec args to the already-merged stored args, so the new
record's args are spec.Args ++ old.Options.Args and the spec args
appear twice. -/
theorem C10_restart_remerges_spec_args (r : AppRunner) (os : OS) (st : Store)
    (env : StartEnv) (id : String) (oldInst newInst : AppInstance)
    (st' : Store) (os' : OS) (appSpec : RunnerAppSpec) (clean : Bool)
    (hget : r.GetInstance st id = Except.ok (some oldInst))
    (hspec : r.Apps oldInst.Name = some appSpec)
    (hargs : 0 < appSpec.Args.length)
    (hig : oldInst.Options.IgnoreSpecArgs = false)
    (hrun : r.Restart os st env id clean = (Except.ok newInst, st', os')) :
    newInst.Options.Args = appSpec.Args ++ oldInst.Options.Args ∧
    (∀ orig, oldInst.Options.Args = appSpec.Args ++ orig →
      newInst.Options.Args = appSpec.Args ++ (appSpec.Args ++ orig)) := by
  unfold AppRunner.Restart at hrun
  rw [hget] at hrun
  simp only [] at hrun
  rcases hstop : oldInst.Stop os with ⟨eo, os2⟩
  rw [hstop] at hrun
  cases eo with
  | some e => simp at hrun
  | none =>
      obtain ⟨nid, pid, os1, hid, hsing, hpid, hinst, hst, hos⟩ :=
        Start_ok_shape r os2 (if clean = true then r.Clean st oldInst.ID else st)
          env oldInst.Name oldInst.Command oldInst.Options newInst st' os' hrun
      have hmain : newInst.Options.Args = appSpec.Args ++ oldInst.Options.Args := by
        rw [hinst]
        simp [resolveStartParams, hspec, hig, hargs]
      exact ⟨hmain, fun orig ho => by rw [hmain, ho]⟩

theorem loadInstances_storeOf (r : AppRunner) :
    ∀ insts : InstanceList,
      r.loadInstances (storeOf insts) none none = Except.ok insts := by
  intro insts
  induction insts with
  | nil => rfl
  | cons i rest ih =>
      simp only [storeOf, List.map_cons] at ih ⊢
      simp [AppRunner.loadInstances, ih]

theorem foldl_remove_filter (os : OS) (r : AppRunner) :
    ∀ (insts : InstanceList) (st : Store),
      insts.foldl (fun acc inst =>
          if (inst.GetStatus os).1 == StatusExited then
            r.RemoveInstance acc inst.ID
          else acc) st
        = st.filter (fun e =>
            !(insts.any (fun i =>
              ((i.GetStatus os).1 == StatusExited) && i.ID == e.1))) := by
  intro insts
  induction insts with
  | nil => intro st; simp
  | cons i rest ih =>
      intro st
      simp only [List.foldl_cons]
      by_cases hexit : ((i.GetStatus os).1 == StatusExited) = true
      · rw [if_pos hexit, ih]
        simp only [AppRunner.RemoveInstance, Store.removeAll, List.filter_filter]
        apply List.filter_congr
        intro e _
        cases hb : rest.any (fun i2 =>
            ((i2.GetStatus os).1 == StatusExited) && i2.ID == e.1) <;>
          by_cases h1 : i.ID = e.1 <;>
            simp [hexit, hb, h1, bne, eq_comm]
      · rw [if_neg hexit, ih]
        apply List.filter_congr
        intro e _
        have hexit2 : ((i.GetStatus os).1 == StatusExited) = false :=
          Bool.eq_false_iff.mpr hexit
        simp [hexit2]

/-- C5: CleanAll removes exactly the instances whose derived status is
Exited and leaves every Running or Error instance's directory in the
store untouched: the resulting store is the original one filtered to
the non-Exited records. -/
theorem C5_cleanAll_exact (r : AppRunner) (os : OS) (insts : InstanceList)
    (huniq : ∀ i ∈ insts, ∀ j ∈ insts, i.ID = j.ID → i = j) :
    r.CleanAll os (storeOf insts)
      = Except.ok (storeOf (insts.filter
          (fun i => !((i.GetStatus os).1 == StatusExited)))) := by
  unfold AppRunner.CleanAll
  have hlist : r.List os (storeOf insts) false = Except.ok insts := by
    simp [AppRunner.List, loadInstances_storeOf]
  rw [hlist]
  simp only [foldl_remove_filter]
  unfold storeOf
  rw [List.filter_map]
  congr 1
  congr 1
  apply List.filter_congr
  intro j hj
  simp only [Function.comp]
  cases hexit : ((j.GetStatus os).1 == StatusExited) with
  | true =>
      have hany : insts.any (fun i =>
          ((i.GetStatus os).1 == StatusExited) && i.ID == j.ID) = true := by
        rw [List.any_eq_true]
        exact ⟨j, hj, by simp [hexit]⟩
      simp [hany, hexit]
  | false =>
      have hany : insts.any (fun i =>
          ((i.GetStatus os).1 == StatusExited) && i.ID == j.ID) = false := by
        rw [Bool.eq_false_iff]
        intro hx
        rw [List.any_eq_true] at hx
        obtain ⟨i, hi, hx⟩ := hx
        rw [Bool.and_eq_true] at hx
        have hij : i = j := huniq i hi j hj (by simpa using hx.2)
        rw [hij] at hx
        rw [hexit] at hx
        cases hx.1
      simp [hany, hexit]

/-- C5 witness: the spec's own example - of three instances Running,
Exited, Exited, exactly the two Exited ones are removed. -/
theorem C5_cleanAll_exact_witness :
    AppRunner.CleanAll ⟨fun _ => none⟩
      ⟨fun p => if p = 1 then ProcState.alive else ProcState.finished⟩
      (storeOf [⟨"a", 0, "x", "/bin/x", plainOpts, 1⟩,
                ⟨"b", 0, "x", "/bin/x", plainOpts, 2⟩,
                ⟨"c", 0, "x", "/bin/x", plainOpts, 3⟩])
      = Except.ok [("a", RecordFile.good ⟨"a", 0, "x", "/bin/x", plainOpts, 1⟩)] := by
  have h := C5_cleanAll_exact ⟨fun _ => none⟩
    ⟨fun p => if p = 1 then ProcState.alive else ProcState.finished⟩
    [⟨"a", 0, "x", "/bin/x", plainOpts, 1⟩,
     ⟨"b", 0, "x", "/bin/x", plainOpts, 2⟩,
     ⟨"c", 0, "x", "/bin/x", plainOpts, 3⟩]
    (by decide)
  exact h

/-- C1: starting a singleton app twice in sequence from an empty store
stops the first instance's running process during the second Start
(the first PID ends up finished, showing the Stop signal was issued
before the new launch) and leaves exactly one Running instance, whose
PID is the second start's PID. -/
theorem C1_singleton_twice (r : AppRunner) (os0 : OS) (name command : String)
    (args : List String) (wd : String) (i1 i2 : String) (p1 p2 : Int) (t1 t2 : Nat)
    (hname : r.Apps name = none) (hcmd : ¬ command = "")
    (hi : ¬ i1 = i2) (hp : ¬ p1 = p2) :
    let opts : AppStartOptions := ⟨args, wd, true, false, false⟩
    let inst1 : AppInstance := ⟨i1, t1, name, command, opts, p1⟩
    let inst2 : AppInstance := ⟨i2, t2, name, command, opts, p2⟩
    let env1 : StartEnv := ⟨[i1], t1, none, none, none, Except.ok p1, none, none⟩
    let env2 : StartEnv := ⟨[i2], t2, none, none, none, Except.ok p2, none, none⟩
    let run1 := r.Start os0 [] env1 name command opts
    let run2 := r.Start run1.2.2 run1.2.1 env2 name command opts
    run1.1 = Except.ok inst1 ∧
    run2.1 = Except.ok inst2 ∧
    run2.2.2.procs p1 = ProcState.finished ∧
    run2.2.2.procs p2 = ProcState.alive ∧
    r.List run2.2.2 run2.2.1 true = Except.ok [inst2] := by
  intro opts inst1 inst2 env1 env2 run1 run2
  have h1 : run1 = (Except.ok inst1, [(i1, RecordFile.good inst1)], os0.spawn p1) := by
    simp [run1, env1, opts, inst1, AppRunner.Start, resolveStartParams, hname,
      singletonPhase, AppRunner.GetInstancesByName, AppRunner.loadInstances,
      stopRunningInstances, getNextRandomID, Store.hasDir, Store.mkdirAll,
      Store.removeAll, Store.writeRecord, hcmd]
  have h2 : run2 = (Except.ok inst2,
      [(i1, RecordFile.good inst1), (i2, RecordFile.good inst2)],
      OS.spawn ⟨fun p => if p = p1 then ProcState.finished
        else (os0.spawn p1).procs p⟩ p2) := by
    rw [show run2 = r.Start run1.2.2 run1.2.1 env2 name command opts from rfl, h1]
    simp [env2, opts, inst1, inst2, AppRunner.Start, resolveStartParams, hname,
      singletonPhase, AppRunner.GetInstancesByName, AppRunner.loadInstances,
      stopRunningInstances, AppInstance.GetStatus, AppInstance.Stop, OS.deliver,
      OS.spawn, getNextRandomID, Store.hasDir, Store.mkdirAll, Store.removeAll,
      Store.writeRecord, hcmd, hi, hp, SignalInt, StatusRunning, errFinished]
  refine ⟨by rw [h1], by rw [h2], ?_, ?_, ?_⟩
  · rw [h2]
    simp [OS.spawn, hp]
  · rw [h2]
    simp [OS.spawn]
  · rw [h2]
    simp [AppRunner.List, AppRunner.loadInstances, AppInstance.GetStatus,
      OS.deliver, OS.spawn, inst1, inst2, StatusRunning, StatusExited,
      errFinished, hp]

/-- C6 witness: a concrete no-clean Restart, instantiating
`C6_restart_noclean`: the new ID differs from the old one and the old
record is still in the store. -/
theorem C6_restart_noclean_witness :
    (AppInstance.mk "new1" 1 "n" "/bin/x" plainOpts 52).ID ≠ "old1" ∧
    [("old1", RecordFile.good ⟨"old1", 0, "n", "/bin/x", plainOpts, 9⟩),
     ("new1", RecordFile.good ⟨"new1", 1, "n", "/bin/x", plainOpts, 52⟩)]
      = [("old1", RecordFile.good ⟨"old1", 0, "n", "/bin/x", plainOpts, 9⟩)] ++
        [((AppInstance.mk "new1" 1 "n" "/bin/x" plainOpts 52).ID,
          RecordFile.good ⟨"new1", 1, "n", "/bin/x", plainOpts, 52⟩)] :=
  C6_restart_noclean noApps deadOS
    [("old1", RecordFile.good ⟨"old1", 0, "n", "/bin/x", plainOpts, 9⟩)]
    ⟨["new1"], 1, none, none, none, Except.ok 52, none, none⟩
    "old1" ⟨"old1", 0, "n", "/bin/x", plainOpts, 9⟩
    ⟨"new1", 1, "n", "/bin/x", plainOpts, 52⟩
    ([("old1", RecordFile.good ⟨"old1", 0, "n", "/bin/x", plainOpts, 9⟩),
      ("new1", RecordFile.good ⟨"new1", 1, "n", "/bin/x", plainOpts, 52⟩)])
    (OS.spawn deadOS 52) rfl rfl

/-- C10 witness: restarting a stored instance whose args were already
merged (`["-a", "-b"]` from spec args `["-a"]` and original `["-b"]`)
yields a record whose args hold the spec args twice. -/
theorem C10_restart_remerges_spec_args_witness :
    (AppInstance.mk "n1" 1 "service" "/bin/srv"
        ⟨["-a", "-a", "-b"], "", false, false, false⟩ 53).Options.Args
      = ["-a"] ++ ["-a", "-b"] ∧
    (AppInstance.mk "n1" 1 "service" "/bin/srv"
        ⟨["-a", "-a", "-b"], "", false, false, false⟩ 53).Options.Args
      = ["-a"] ++ (["-a"] ++ ["-b"]) := by
  have h := C10_restart_remerges_spec_args
    ⟨fun n => if n = "service" then
        some ⟨"service", "/bin/srv", "", false, ["-a"]⟩
      else none⟩
    deadOS
    [("o1", RecordFile.good ⟨"o1", 0, "service", "/bin/srv",
      ⟨["-a", "-b"], "", false, false, false⟩, 9⟩)]
    ⟨["n1"], 1, none, none, none, Except.ok 53, none, none⟩
    "o1"
    ⟨"o1", 0, "service", "/bin/srv", ⟨["-a", "-b"], "", false, false, false⟩, 9⟩
    ⟨"n1", 1, "service", "/bin/srv", ⟨["-a", "-a", "-b"], "", false, false, false⟩, 53⟩
    _ _ ⟨"service", "/bin/srv", "", false, ["-a"]⟩ false
    rfl rfl (by decide) rfl rfl
  exact ⟨h.1, h.2 ["-b"] rfl⟩

/-- C1 witness: the two-sequential-starts scenario at concrete values,
instantiating `C1_singleton_twice`. -/
theorem C1_singleton_twice_witness :
    (AppRunner.Start ⟨fun _ => none⟩ deadOS []
        ⟨["w1"], 5, none, none, none, Except.ok 1, none, none⟩
        "echo" "/bin/sleep" ⟨[], "", true, false, false⟩).1
      = Except.ok ⟨"w1", 5, "echo", "/bin/sleep", ⟨[], "", true, false, false⟩, 1⟩ ∧
    (AppRunner.Start ⟨fun _ => none⟩
        (AppRunner.Start ⟨fun _ => none⟩ deadOS []
          ⟨["w1"], 5, none, none, none, Except.ok 1, none, none⟩
          "echo" "/bin/sleep" ⟨[], "", true, false, false⟩).2.2
        (AppRunner.Start ⟨fun _ => none⟩ deadOS []
          ⟨["w1"], 5, none, none, none, Except.ok 1, none, none⟩
          "echo" "/bin/sleep" ⟨[], "", true, false, false⟩).2.1
        ⟨["w2"], 6, none, none, none, Except.ok 2, none, none⟩
        "echo" "/bin/sleep" ⟨[], "", true, false, false⟩).1
      = Except.ok ⟨"w2", 6, "echo", "/bin/sleep", ⟨[], "", true, false, false⟩, 2⟩ ∧
    (AppRunner.Start ⟨fun _ => none⟩
        (AppRunner.Start ⟨fun _ => none⟩ deadOS []
          ⟨["w1"], 5, none, none, none, Except.ok 1, none, none⟩
          "echo" "/bin/sleep" ⟨[], "", true, false, false⟩).2.2
        (AppRunner.Start ⟨fun _ => none⟩ deadOS []
          ⟨["w1"], 5, none, none, none, Except.ok 1, none, none⟩
          "echo" "/bin/sleep" ⟨[], "", true, false, false⟩).2.1
        ⟨["w2"], 6, none, none, none, Except.ok 2, none, none⟩
        "echo" "/bin/sleep" ⟨[], "", true, false, false⟩).2.2.procs 1
      = ProcState.finished ∧
    (AppRunner.Start ⟨fun _ => none⟩
        (AppRunner.Start ⟨fun _ => none⟩ deadOS []
          ⟨["w1"], 5, none, none, none, Except.ok 1, none, none⟩
          "echo" "/bin/sleep" ⟨[], "", true, false, false⟩).2.2
        (AppRunner.Start ⟨fun _ => none⟩ deadOS []
          ⟨["w1"], 5, none, none, none, Except.ok 1, none, none⟩
          "echo" "/bin/sleep" ⟨[], "", true, false, false⟩).2.1
        ⟨["w2"], 6, none, none, none, Except.ok 2, none, none⟩
        "echo" "/bin/sleep" ⟨[], "", true, false, false⟩).2.2.procs 2
      = ProcState.alive ∧
    AppRunner.List ⟨fun _ => none⟩
      (AppRunner.Start ⟨fun _ => none⟩
        (AppRunner.Start ⟨fun _ => none⟩ deadOS []
          ⟨["w1"], 5, none, none, none, Except.ok 1, none, none⟩
          "echo" "/bin/sleep" ⟨[], "", true, false, false⟩).2.2
        (AppRunner.Start ⟨fun _ => none⟩ deadOS []
          ⟨["w1"], 5, none, none, none, Except.ok 1, none, none⟩
          "echo" "/bin/sleep" ⟨[], "", true, false, false⟩).2.1
        ⟨["w2"], 6, none, none, none, Except.ok 2, none, none⟩
        "echo" "/bin/sleep" ⟨[], "", true, false, false⟩).2.2
      (AppRunner.Start ⟨fun _ => none⟩
        (AppRunner.Start ⟨fun _ => none⟩ deadOS []
          ⟨["w1"], 5, none, none, none, Except.ok 1, none, none⟩
          "echo" "/bin/sleep" ⟨[], "", true, false, false⟩).2.2
        (AppRunner.Start ⟨fun _ => none⟩ deadOS []
          ⟨["w1"], 5, none, none, none, Except.ok 1, none, none⟩
          "echo" "/bin/sleep" ⟨[], "", true, false, false⟩).2.1
        ⟨["w2"], 6, none, none, none, Except.ok 2, none, none⟩
        "echo" "/bin/sleep" ⟨[], "", true, false, false⟩).2.1
      true
      = Except.ok [⟨"w2", 6, "echo", "/bin/sleep", ⟨[], "", true, false, false⟩, 2⟩] :=
  C1_singleton_twice ⟨fun _ => none⟩ deadOS "echo" "/bin/sleep" [] "" "w1" "w2" 1 2 5 6
    rfl (by decide) (by decide) (by decide)
